import Mathlib

set_option maxRecDepth 1000000

/-!
Verification development for the modulegraph core of bbfreeze
(src/bbfreeze/modulegraph/modulegraph.py): a shallow embedding of the
bytecode decoder and the import-resolution engine, plus theorems about
the frozen behavioural claims.

Conventions of the embedding:
* Python's mutable heap objects are split between an explicit state
  record St (the graph, the lazy-registry, the three per-node mutable
  container stores) and an immutable environment Env holding the host
  collaborators (file system probe, compiler results, sys.path, magic
  tag, interpreter version, os.path.realpath, sys.modules, os.listdir).
* Node objects are passed as their graph identifier (a String); every
  attribute access goes through the state, which is faithful because the
  graph holds at most one node per identifier.
* Python sets of names are modelled as lists read up to membership
  (set.add is cons, set.update is append); no claim observes
  cardinality or iteration order of these sets.
* The recursive engine is fuelled: every function takes a Nat fuel and
  every internal call strictly decreases it, so the whole development is
  executable and kernel-reducible.  Running out of fuel is the distinct
  error Err.outOfFuel, never confused with a Python exception.
* Python exceptions are the Err type; ImportError carries an ImpKind
  distinguishing the raise sites (no-module, relative-too-deep,
  bad-magic, the defensive duplicate check).  State changes made before
  a raise are kept, as in Python.
-/

/-- Python 2.7 opcode numbers, the values of dis.opname.index(...) used
at the top of the source file. -/
def STORE_NAME : Nat := 90

/-- dis.opname.index of STORE_GLOBAL. -/
def STORE_GLOBAL : Nat := 97

/-- dis.opname.index of LOAD_CONST. -/
def LOAD_CONST : Nat := 100

/-- dis.opname.index of IMPORT_NAME. -/
def IMPORT_NAME : Nat := 107

/-- dis.HAVE_ARGUMENT. -/
def HAVE_ARGUMENT : Nat := 90

/-- STORE_OPS = [STORE_NAME, STORE_GLOBAL]. -/
def STORE_OPS : List Nat := [STORE_NAME, STORE_GLOBAL]

mutual
/-- A constant-pool entry of a compiled code object: None, an int (the
relative-import level), a tuple of strings (a fromlist) or a nested code
object. -/
inductive PyConst where
  | noneC : PyConst
  | intC : Int → PyConst
  | strsC : List String → PyConst
  | codeC : PyCode → PyConst

/-- A compiled code object: co_code (byte stream), co_names,
co_consts. -/
inductive PyCode where
  | mk : List Nat → List String → List PyConst → PyCode
end

def PyCode.co_code : PyCode → List Nat
  | .mk b _ _ => b

def PyCode.co_names : PyCode → List String
  | .mk _ n _ => n

def PyCode.co_consts : PyCode → List PyConst
  | .mk _ _ c => c

/-- An event yielded by the opcode scanners: a top-level store, an
implicit-relative import (level -1), an absolute import (level 0) or an
explicit relative import (the remaining levels). -/
inductive ScanEvent where
  | store : String → ScanEvent
  | imp : Option (List String) → String → ScanEvent
  | absImp : Option (List String) → String → ScanEvent
  | relImp : Int → Option (List String) → String → ScanEvent
deriving DecidableEq

/-- Decode a fromlist constant: only a tuple of strings yields a
fromlist, None (and anything else) yields no fromlist. -/
def fromlistOf : PyConst → Option (List String)
  | .strsC l => some l
  | _ => none

/-- scan_opcodes: the decoder dialect of Python 2.4 and older.  A
LOAD_CONST immediately followed by IMPORT_NAME is an import event
carrying (fromlist, name); STORE_NAME/STORE_GLOBAL is a store event;
everything else is skipped by its fixed or argument width.  A stream
too short for the pending operands stops the scan (the host unpack
would fault there). -/
def scan_opcodes : List Nat → List String → List PyConst → List ScanEvent
  | [], _, _ => []
  | c :: rest, names, consts =>
    if STORE_OPS.contains c then
      match rest with
      | b1 :: b2 :: rest2 =>
        ScanEvent.store (names.getD (b1 + 256 * b2) "") :: scan_opcodes rest2 names consts
      | _ => []
    else if c = LOAD_CONST ∧ rest.getD 2 0 = IMPORT_NAME then
      match rest with
      | a1 :: a2 :: _d :: b1 :: b2 :: rest2 =>
        ScanEvent.imp (fromlistOf (consts.getD (a1 + 256 * a2) PyConst.noneC))
            (names.getD (b1 + 256 * b2) "") :: scan_opcodes rest2 names consts
      | _ => []
    else if HAVE_ARGUMENT ≤ c then
      match rest with
      | _ :: _ :: rest2 => scan_opcodes rest2 names consts
      | _ => []
    else
      scan_opcodes rest names consts

/-- Classify the level constant of the 2.5 dialect exactly as the
source compares it: -1 is a normal import, 0 an absolute import, any
other value lands in the relative branch.  A non-integer level is
mapped to -2, which determine_parent treats exactly like the host
treats a non-integer there (neither >= 1 nor == 0). -/
def levelValue : PyConst → Int
  | .intC i => i
  | _ => -2

/-- scan_opcodes_25: the Python 2.5 dialect.  The marker pattern is
LOAD_CONST, LOAD_CONST, IMPORT_NAME at three consecutive instruction
slots, carrying (level, fromlist, name). -/
def scan_opcodes_25 : List Nat → List String → List PyConst → List ScanEvent
  | [], _, _ => []
  | c :: rest, names, consts =>
    if STORE_OPS.contains c then
      match rest with
      | b1 :: b2 :: rest2 =>
        ScanEvent.store (names.getD (b1 + 256 * b2) "") :: scan_opcodes_25 rest2 names consts
      | _ => []
    else if c = LOAD_CONST ∧ rest.getD 2 0 = LOAD_CONST ∧ rest.getD 5 0 = IMPORT_NAME then
      match rest with
      | a1 :: a2 :: _c2 :: b1 :: b2 :: _c3 :: d1 :: d2 :: rest2 =>
        let lv := levelValue (consts.getD (a1 + 256 * a2) PyConst.noneC)
        let fl := fromlistOf (consts.getD (b1 + 256 * b2) PyConst.noneC)
        let nm := names.getD (d1 + 256 * d2) ""
        (if lv = -1 then ScanEvent.imp fl nm
         else if lv = 0 then ScanEvent.absImp fl nm
         else ScanEvent.relImp lv fl nm) :: scan_opcodes_25 rest2 names consts
      | _ => []
    else if HAVE_ARGUMENT ≤ c then
      match rest with
      | _ :: _ :: rest2 => scan_opcodes_25 rest2 names consts
      | _ => []
    else
      scan_opcodes_25 rest names consts

/-- The kind tag of a graph node, one per Node subclass of the
source. -/
inductive NodeKind where
  | plainNode
  | aliasNode
  | excludedModule
  | missingModule
  | script
  | builtinModule
  | sourceModule
  | compiledModule
  | package
  | flatPackage
  | extensionModule
  | namespaceModule
deriving DecidableEq

/-- A graph node.  namespace, globalnames and starimports are mutable
container objects in the source, so a node holds store indices (nsid,
gnid, siid) into St; AliasNode construction copies the target's nsid
and gnid (reference copy), which models Python attribute aliasing. -/
structure NodeRec where
  graphident : String
  identifier : String
  kind : NodeKind
  filename : Option String
  packagepath : Option (List String)
  code : Option PyCode
  nsid : Nat
  gnid : Nat
  siid : Nat

/-- A lazy-registry entry: lazynodes[name] is None for an excluded
name, an Alias string, or a list of implied dependency names. -/
inductive LazyEntry where
  | excludedEntry : LazyEntry
  | aliasOf : String → LazyEntry
  | implies : List String → LazyEntry
deriving DecidableEq

/-- The module type reported by the host finder, mirroring the typ
slot of the imp.find_module result triple plus the NamespaceModule
marker the source uses for pip-style namespace packages. -/
inductive FType where
  | pkgDirectory
  | pySource
  | pyCompiled
  | cBuiltin
  | namespacePkg
  | extensionTyp
deriving DecidableEq

/-- The (fp, pathname, (suffix, mode, typ)) descriptor returned by
find_module, with the file contents already interpreted: co is the
compiled code for a source file (the host compiler collaborator) or the
marshalled payload of a cached file, magic the leading format tag of a
cached file. -/
structure FoundMod where
  pathname : Option String
  ftyp : FType
  co : Option PyCode
  magic : Nat

/-- Modelled from the spec: the host-runtime probe used only for the
namespace-package fallback (sys.modules entries, their recorded file
and search path). -/
structure SysMod where
  file : Option String
  path : Option (List String)

/-- Modelled from the spec: the external collaborators of section 6 —
the file-system matcher behind imp.find_module (fs maps a directory and
a short name to a located module descriptor), sys.path, the builtin
name list, the cache format tag, the interpreter version switch read by
scan_code, os.path.realpath, the compiler results for script files,
sys.modules, os.listdir, imp.get_suffixes, and the two process-wide
package tables of the source. -/
structure Env where
  fs : List ((String × String) × FoundMod)
  defaultPath : List String
  builtins : List String
  magic : Nat
  ge25 : Bool
  realpath : String → String
  scripts : List (String × PyCode)
  sysModules : List (String × SysMod)
  listing : List (String × List String)
  suffixes : List (String × FType)
  packagePathMap : List (String × List String)
  replacePackageMap : List (String × String)

/-- The single shared mutable state: the search path, the lazy
registry, the graph (nodes keyed by identifier, in creation order),
the edge list (source, target, kind), and the three container stores
holding every node's namespace dict, globalnames set and starimports
set. -/
structure St where
  path : List String
  lazynodes : List (String × LazyEntry)
  nodes : List (String × NodeRec)
  edges : List (String × String × String)
  nsStore : List (List (String × Option String))
  gnStore : List (List String)
  siStore : List (List String)

/-- The ImportError raise sites of the source, distinguished the way
the spec's error taxonomy distinguishes them. -/
inductive ImpKind where
  | noModuleNamed
  | relativeTooDeep
  | badCacheFormat
  | duplicateResolution
deriving DecidableEq

/-- Errors: ImportError (with its kind and message), AssertionError,
AttributeError, other host faults (IOError, KeyError, RuntimeError),
and fuel exhaustion of the embedding. -/
inductive Err where
  | importError : ImpKind → String → Err
  | assertionFailed : Err
  | attributeMissing : Err
  | runtimeFault : Err
  | outOfFuel : Err
deriving DecidableEq

/-- The engine monad: state threading where a raised error still keeps
the state mutations made before the raise, as Python does. -/
@[reducible] def M (α : Type) : Type := St → Except Err α × St

instance : Monad M where
  pure a := fun s => (Except.ok a, s)
  bind x f := fun s =>
    match x s with
    | (Except.ok a, s') => f a s'
    | (Except.error e, s') => (Except.error e, s')

def mget : M St := fun s => (Except.ok s, s)

def mset (v : St) : M Unit := fun _ => (Except.ok (), v)

def throwErr (e : Err) : M α := fun s => (Except.error e, s)

/-- try/except ImportError: only Err.importError is caught; the state
reached at the raise point is kept. -/
def tryImp (x : M α) : M (Except (ImpKind × String) α) := fun s =>
  match x s with
  | (Except.ok a, s') => (Except.ok (Except.ok a), s')
  | (Except.error (Err.importError kk msg), s') => (Except.ok (Except.error (kk, msg)), s')
  | (Except.error e, s') => (Except.error e, s')

def lookupStr : List (String × α) → String → Option α
  | [], _ => none
  | (k', v) :: rest, k => if k' = k then some v else lookupStr rest k

def upsert : List (String × α) → String → α → List (String × α)
  | [], k, v => [(k, v)]
  | (k', v') :: rest, k, v =>
    if k' = k then (k, v) :: rest else (k', v') :: upsert rest k v

def removeKey : List (String × α) → String → List (String × α)
  | [], _ => []
  | (k', v') :: rest, k =>
    if k' = k then rest else (k', v') :: removeKey rest k

/-- Python set.add on a name set modelled up to membership. -/
def setAdd (l : List String) (x : String) : List String := x :: l

/-- Python set.update on a name set modelled up to membership. -/
def setUnion (dst src : List String) : List String := src ++ dst

/-- set.add on a set of node references: no duplicate reference. -/
def subsAdd (l : List String) (x : String) : List String :=
  if l.contains x then l else l ++ [x]

/-- union of node-reference sets, keeping first occurrences. -/
def refUnion (a b : List String) : List String :=
  a ++ b.filter (fun x => ¬ a.contains x)

def listEndsWith (l suf : List Char) : Bool :=
  if l.length < suf.length then false
  else (l.drop (l.length - suf.length)) == suf

def strEndsWith (s suf : String) : Bool := listEndsWith s.data suf.data

def strDropRight (s : String) (n : Nat) : String :=
  String.mk (s.data.take (s.data.length - n))

/-- os.path.basename restricted to what the source feeds it. -/
def strBasename (s : String) : String :=
  String.mk (s.data.foldl (fun acc ch => if ch = '/' then [] else acc ++ [ch]) [])

def countDots (s : String) : Nat := s.data.count '.'

def hasDot (s : String) : Bool := s.data.contains '.'

def splitChAux : List Char → List Char → List String
  | [], acc => [String.mk acc.reverse]
  | ch :: rest, acc =>
    if ch = '.' then String.mk acc.reverse :: splitChAux rest [] else splitChAux rest (ch :: acc)

/-- name.split('.'). -/
def splitDots (s : String) : List String := splitChAux s.data []

/-- ".".join(l). -/
def joinDots : List String → String
  | [] => ""
  | [x] => x
  | x :: rest => x ++ "." ++ joinDots rest

/-- pname[:pname.rfind('.')] for a pname containing a dot. -/
def dropLastComp (s : String) : String := joinDots (splitDots s).dropLast

/-- Truthiness of a packagepath attribute: None and the empty list are
false. -/
def ppTruthy : Option (List String) → Bool
  | some (_ :: _) => true
  | _ => false

/-- Truthiness of a fromlist argument. -/
def flTruthy : Option (List String) → Bool
  | some (_ :: _) => true
  | _ => false

def dedupKeepAux : List String → List String → List String
  | _, [] => []
  | seen, x :: r =>
    if seen.contains x then dedupKeepAux seen r else x :: dedupKeepAux (x :: seen) r

def dedupKeep (l : List String) : List String := dedupKeepAux [] l

/-- moduleInfoForPath: match a directory entry against the recognized
module suffixes, returning the stripped module name. -/
def moduleInfoForPath (p : String) (suffixes : List (String × FType)) : Option String :=
  suffixes.findSome? fun sfx =>
    if strEndsWith p sfx.1 then some (strDropRight (strBasename p) sfx.1.data.length) else none

/-- The imp.find_module collaborator: scan the directories in order and
return the first located descriptor for the name. -/
def impFindModule (env : Env) (name : String) (dirs : List String) : Option FoundMod :=
  dirs.findSome? fun d => List.lookup (d, name) env.fs

def upsertNode : List (String × NodeRec) → String → (NodeRec → NodeRec) → List (String × NodeRec)
  | [], _, _ => []
  | (k', v') :: rest, k, f =>
    if k' = k then (k', f v') :: rest else (k', v') :: upsertNode rest k f

def getNode (i : String) : M NodeRec := do
  let s ← mget
  match lookupStr s.nodes i with
  | some n => pure n
  | none => throwErr Err.runtimeFault

def setNodeF (i : String) (f : NodeRec → NodeRec) : M Unit := fun s =>
  match s with
  | ⟨p, lz, nd, ed, ns, gn, si⟩ => (Except.ok (), ⟨p, lz, upsertNode nd i f, ed, ns, gn, si⟩)

/-- ModuleGraph.findNode pops a lazy-registry entry before
materializing it. -/
def popLazy (name : String) : M Unit := fun s =>
  match s with
  | ⟨p, lz, nd, ed, ns, gn, si⟩ => (Except.ok (), ⟨p, removeKey lz name, nd, ed, ns, gn, si⟩)

/-- Modelled from the spec: ObjectGraph.addNode of the graph library —
register a node under its identifier; at most one node per identifier
(an already-present identifier keeps its node). -/
def addNode (n : NodeRec) : M Unit := fun s =>
  match s with
  | ⟨p, lz, nd, ed, ns, gn, si⟩ =>
    match lookupStr nd n.graphident with
    | some _ => (Except.ok (), ⟨p, lz, nd, ed, ns, gn, si⟩)
    | none => (Except.ok (), ⟨p, lz, nd ++ [(n.graphident, n)], ed, ns, gn, si⟩)

/-- Modelled from the spec: ObjectGraph.createReference of the graph
library at the boundary the spec fixes — a missing endpoint (None) adds
no edge, and an already-present (source, target, kind) edge is not
duplicated in the edge enumeration. -/
def createReference (fromN : Option String) (toN : Option String) (data : String) : M Unit := fun s =>
  match fromN, toN with
  | some f, some t =>
    (match s with
     | ⟨p, lz, nd, ed, ns, gn, si⟩ =>
       if ed.contains (f, t, data) then (Except.ok (), ⟨p, lz, nd, ed, ns, gn, si⟩)
       else (Except.ok (), ⟨p, lz, nd, ed ++ [(f, t, data)], ns, gn, si⟩))
  | _, _ => (Except.ok (), s)

def allocNs : M Nat := fun s =>
  match s with
  | ⟨p, lz, nd, ed, ns, gn, si⟩ => (Except.ok ns.length, ⟨p, lz, nd, ed, ns ++ [[]], gn, si⟩)

def allocGn : M Nat := fun s =>
  match s with
  | ⟨p, lz, nd, ed, ns, gn, si⟩ => (Except.ok gn.length, ⟨p, lz, nd, ed, ns, gn ++ [[]], si⟩)

def allocSi : M Nat := fun s =>
  match s with
  | ⟨p, lz, nd, ed, ns, gn, si⟩ => (Except.ok si.length, ⟨p, lz, nd, ed, ns, gn, si ++ [[]]⟩)

/-- Read a namespace entry: none when the key is absent, some v when
present (v itself is None or a node reference, both storable). -/
def nsLookup (nid : Nat) (key : String) : M (Option (Option String)) := do
  let s ← mget
  pure (lookupStr (s.nsStore.getD nid []) key)

def nsSet (nid : Nat) (key : String) (v : Option String) : M Unit := fun s =>
  match s with
  | ⟨p, lz, nd, ed, ns, gn, si⟩ =>
    (Except.ok (), ⟨p, lz, nd, ed, ns.set nid (upsert (ns.getD nid []) key v), gn, si⟩)

def gnAdd (gid : Nat) (x : String) : M Unit := fun s =>
  match s with
  | ⟨p, lz, nd, ed, ns, gn, si⟩ =>
    (Except.ok (), ⟨p, lz, nd, ed, ns, gn.set gid (setAdd (gn.getD gid []) x), si⟩)

def gnMergeFrom (dst src : Nat) : M Unit := fun s =>
  match s with
  | ⟨p, lz, nd, ed, ns, gn, si⟩ =>
    (Except.ok (), ⟨p, lz, nd, ed, ns, gn.set dst (setUnion (gn.getD dst []) (gn.getD src [])), si⟩)

def siAdd (sid : Nat) (x : String) : M Unit := fun s =>
  match s with
  | ⟨p, lz, nd, ed, ns, gn, si⟩ =>
    (Except.ok (), ⟨p, lz, nd, ed, ns, gn, si.set sid (setAdd (si.getD sid []) x)⟩)

def siMergeFrom (dst src : Nat) : M Unit := fun s =>
  match s with
  | ⟨p, lz, nd, ed, ns, gn, si⟩ =>
    (Except.ok (), ⟨p, lz, nd, ed, ns, gn, si.set dst (setUnion (si.getD dst []) (si.getD src []))⟩)

/-- Construct a node the way the Node class hierarchy does: fresh
namespace, globalnames and starimports containers, no filename,
packagepath or code; Script stores its path as filename; AliasNode then
rebinds identifier, packagepath, namespace and globalnames to the
target's (a reference copy of the container objects) — the source's
attribute list misspells starimports as startimports, so the alias
keeps its fresh empty starimports set. -/
def constructNode (kind : NodeKind) (name : String) (aliasTarget : Option NodeRec) : M NodeRec := do
  let nsid ← allocNs
  let gnid ← allocGn
  let siid ← allocSi
  let base : NodeRec :=
    { graphident := name, identifier := name, kind := kind, filename := none,
      packagepath := none, code := none, nsid := nsid, gnid := gnid, siid := siid }
  match kind, aliasTarget with
  | NodeKind.script, _ => pure { base with filename := some name }
  | NodeKind.aliasNode, some t =>
    pure { base with identifier := t.identifier, packagepath := t.packagepath,
                     nsid := t.nsid, gnid := t.gnid }
  | _, _ => pure base

/-- ModuleGraph.__init__: the search path defaults to sys.path; the
lazy registry takes the implies table first, then every exclude
overrides its entry with the excluded marker (excludes is stronger than
implies). -/
def mkState (env : Env) (path : Option (List String)) (excludes : List String)
    (implies : List (String × LazyEntry)) : St :=
  { path := path.getD env.defaultPath
  , lazynodes :=
      excludes.foldl (fun acc m => upsert acc m LazyEntry.excludedEntry)
        (implies.foldl (fun acc p => upsert acc p.1 p.2) [])
  , nodes := [], edges := [], nsStore := [], gnStore := [], siStore := [] }

/-- find_all_submodules: list every packagepath directory (an unreadable
directory degrades to no entries) and keep each entry matching a module
suffix, except the package initializer. -/
def find_all_submodules (env : Env) (mref : String) : M (List String) := do
  let mn ← getNode mref
  match mn.packagepath with
  | some dirs@(_ :: _) =>
    if ¬ ppTruthy (some dirs) then pure [] else
    pure <| dirs.foldl (fun acc d =>
      let names := (lookupStr env.listing d).getD []
      acc ++ (names.filterMap (fun nm => moduleInfoForPath nm env.suffixes)).filter
        (fun b => b ≠ "__init__")) []
  | _ => pure []

def refLoop (caller : Option String) : List String → M Unit
  | [] => pure ()
  | m :: rest => do
    createReference caller (some m) "direct"
    refLoop caller rest

def refFromLoop (node : String) : List String → M Unit
  | [] => pure ()
  | o :: rest => do
    createReference (some node) (some o) "direct"
    refFromLoop node rest

/-- The scanner selection of scan_code: the 2.5 decoder when the host
interpreter is at least 2.5, the old decoder otherwise. -/
def runScanner (env : Env) (co : PyCode) : List ScanEvent :=
  if env.ge25 then scan_opcodes_25 co.co_code co.co_names co.co_consts
  else scan_opcodes co.co_code co.co_names co.co_consts

mutual

/-- ModuleGraph.findNode: the materialized node if present, else
materialize a lazy-registry entry — an excluded name becomes an
ExcludedModule, an alias resolves its target through the non-raising
wrapper and builds an AliasNode plus an implied reference, and an
implied-dependency name resolves itself and then implies each listed
dependency. -/
def findNode : Nat → Env → String → M (Option String)
  | 0, _, _ => throwErr Err.outOfFuel
  | k + 1, env, name => do
    let s ← mget
    match lookupStr s.nodes name with
    | some _ => pure (some name)
    | none =>
      match lookupStr s.lazynodes name with
      | none => pure none
      | some entry => do
        popLazy name
        match entry with
        | LazyEntry.excludedEntry => do
          let m ← createNode k env NodeKind.excludedModule name none
          pure (some m)
        | LazyEntry.aliasOf target => do
          let others ← safe_import_hook k env target none none (-1)
          match others with
          | other :: _ => do
            let m ← createNode k env NodeKind.aliasNode name (some other)
            implyNodeReference k env m (Sum.inr other)
            pure (some m)
          | [] => throwErr Err.runtimeFault
        | LazyEntry.implies deps => do
          let ms ← safe_import_hook k env name none none (-1)
          match ms with
          | m :: _ => do
            implyDepsLoop k env m deps
            pure (some m)
          | [] => throwErr Err.runtimeFault

/-- Modelled from the spec: ObjectGraph.createNode of the graph
library — look the identifier up through the (overridden) findNode:
re-resolving an already-materialized identifier returns the existing
node and never creates a duplicate; only an unseen identifier is
constructed and registered. -/
def createNode : Nat → Env → NodeKind → String → Option String → M String
  | 0, _, _, _, _ => throwErr Err.outOfFuel
  | k + 1, env, cls, name, aliasTarget => do
    let mO ← findNode k env name
    match mO with
    | some m => pure m
    | none => do
      let tgt ← match aliasTarget with
        | some t => do
          let tn ← getNode t
          pure (some tn)
        | none => pure (none : Option NodeRec)
      let n ← constructNode cls name tgt
      addNode n
      pure name

/-- ModuleGraph.implyNodeReference: a plain name resolves through the
raising import hook with the implying node as caller and every produced
module gets a direct edge from the implying node; an existing AliasNode value
hits the missing connectTo attribute of Node (an AttributeError in the
source); any other node value just gets a direct edge. -/
def implyNodeReference : Nat → Env → String → Sum String String → M Unit
  | 0, _, _, _ => throwErr Err.outOfFuel
  | k + 1, env, node, other =>
    match other with
    | Sum.inl depname => do
      let others ← import_hook k env depname (some node) none (-1)
      refFromLoop node others
    | Sum.inr oref => do
      let onode ← getNode oref
      if onode.kind = NodeKind.aliasNode then do
        addNode onode
        throwErr Err.attributeMissing
      else createReference (some node) (some oref) "direct"

def implyDepsLoop : Nat → Env → String → List String → M Unit
  | 0, _, _, _ => throwErr Err.outOfFuel
  | _ + 1, _, _, [] => pure ()
  | k + 1, env, m, dep :: rest => do
    implyNodeReference k env m (Sum.inl dep)
    implyDepsLoop k env m rest

/-- ModuleGraph.run_script: create a node by (real) path; a path whose
node already exists is returned at once, otherwise the compiled source
is attached to a fresh Script node, an edge from the caller is created
and the code is scanned. -/
def run_script : Nat → Env → String → Option String → M String
  | 0, _, _, _ => throwErr Err.outOfFuel
  | k + 1, env, pathname, caller => do
    let p := env.realpath pathname
    let mO ← findNode k env p
    match mO with
    | some m => pure m
    | none => do
      let co ← match lookupStr env.scripts p with
        | some co => pure co
        | none => throwErr Err.runtimeFault
      let m ← createNode k env NodeKind.script p none
      setNodeF m (fun n => { n with code := some co })
      createReference caller (some m) "direct"
      scan_code k env co m
      pure m

/-- ModuleGraph.import_hook: determine the parent package, find the
head package, load the dotted tail, optionally satisfy the fromlist on
a package-like leaf, and create a direct edge from the caller to every
produced module. -/
def import_hook : Nat → Env → String → Option String → Option (List String) → Int → M (List String)
  | 0, _, _, _, _, _ => throwErr Err.outOfFuel
  | k + 1, env, name, caller, fromlist, level => do
    let parent ← determine_parent k env caller level
    let qt ← find_head_package k env parent name
    let m ← load_tail k env qt.1 qt.2
    let mn ← getNode m
    let modules ←
      if flTruthy fromlist ∧ ppTruthy mn.packagepath then do
        let subs ← ensure_fromlist k env m (fromlist.getD [])
        pure (refUnion [m] subs)
      else pure [m]
    refLoop caller modules
    pure modules

/-- ModuleGraph.determine_parent: no caller or level 0 means no parent;
level >= 1 consumes one step for a package-like caller, returns the
caller itself when the remaining level is 0, fails with the
relative-import-too-deep ImportError when the remaining level exceeds
the dot count, and otherwise truncates the identifier; the implicit
level (-1 and every other remaining value) returns a package-like
caller itself, or the node of the identifier truncated before its last
dot, or nothing. -/
def determine_parent : Nat → Env → Option String → Int → M (Option String)
  | 0, _, _, _ => throwErr Err.outOfFuel
  | k + 1, env, caller, level => do
    match caller with
    | none => pure none
    | some cid =>
      if level = 0 then pure none else do
      let c ← getNode cid
      let pname := c.identifier
      if 1 ≤ level then
        let lvl := if ppTruthy c.packagepath then level - 1 else level
        if lvl = 0 then do
          let parent ← findNode k env pname
          if parent = some cid then pure parent else throwErr Err.assertionFailed
        else if (countDots pname : Int) < lvl then
          throwErr (Err.importError ImpKind.relativeTooDeep "relative importpath too deep")
        else do
          let parts := splitDots pname
          findNode k env (joinDots (parts.take (parts.length - lvl.toNat)))
      else if ppTruthy c.packagepath then do
        let parent ← findNode k env pname
        if parent = some cid then pure parent else throwErr Err.assertionFailed
      else if hasDot pname then do
        let pname2 := dropLastComp pname
        let parent ← findNode k env pname2
        match parent with
        | some pid => do
          let pn ← getNode pid
          if pn.identifier = pname2 then pure parent else throwErr Err.assertionFailed
        | none => pure none
      else pure none

/-- ModuleGraph.find_head_package: split the name at its first dot and
resolve the head qualified under the parent, retrying once without a
parent on failure; exhausting both attempts raises the
no-module ImportError. -/
def find_head_package : Nat → Env → Option String → String → M (String × String)
  | 0, _, _, _ => throwErr Err.outOfFuel
  | k + 1, env, parent, name => do
    let parts := splitDots name
    let head := if hasDot name then parts.headD "" else name
    let tail := if hasDot name then joinDots parts.tail else ""
    let qname ← match parent with
      | some p => do
        let pn ← getNode p
        pure (pn.identifier ++ "." ++ head)
      | none => pure head
    let q ← import_module k env head qname parent
    match q with
    | some qid => pure (qid, tail)
    | none =>
      match parent with
      | some _ => do
        let q2 ← import_module k env head head none
        match q2 with
        | some qid => pure (qid, tail)
        | none => throwErr (Err.importError ImpKind.noModuleNamed ("No module named " ++ head))
      | none => throwErr (Err.importError ImpKind.noModuleNamed ("No module named " ++ qname))

/-- ModuleGraph.load_tail: descend the remaining dotted components one
resolution step at a time; a missing component raises the no-module
ImportError naming the full dotted path. -/
def load_tail : Nat → Env → String → String → M String
  | 0, _, _, _ => throwErr Err.outOfFuel
  | k + 1, env, q, tail => do
    if tail = "" then pure q else do
    let parts := splitDots tail
    let head := parts.headD ""
    let rest := joinDots parts.tail
    let qn ← getNode q
    let mname := qn.identifier ++ "." ++ head
    let mO ← import_module k env head mname q
    match mO with
    | some m => load_tail k env m rest
    | none => throwErr (Err.importError ImpKind.noModuleNamed ("No module named " ++ mname))

/-- ModuleGraph.ensure_fromlist: expand a wildcard entry into every
directly loadable submodule name, then produce each requested name from
the package namespace or by importing it; a miss raises the no-module
ImportError naming the full dotted path. -/
def ensure_fromlist : Nat → Env → String → List String → M (List String)
  | 0, _, _, _ => throwErr Err.outOfFuel
  | k + 1, env, mref, fromlist => do
    let fl ←
      if fromlist.contains "*" then do
        let subs ← find_all_submodules env mref
        pure (dedupKeep (fromlist.filter (fun x => x ≠ "*") ++ subs))
      else pure (dedupKeep fromlist)
    ensure_fromlist_loop k env mref fl

def ensure_fromlist_loop : Nat → Env → String → List String → M (List String)
  | 0, _, _, _ => throwErr Err.outOfFuel
  | _ + 1, _, _, [] => pure []
  | k + 1, env, mref, sub :: rest => do
    let mn ← getNode mref
    let nsv ← nsLookup mn.nsid sub
    let submod ← match nsv with
      | some (some s) => pure s
      | _ => do
        let fullname := mn.identifier ++ "." ++ sub
        let r ← import_module k env sub fullname (some mref)
        match r with
        | some s => pure s
        | none => throwErr (Err.importError ImpKind.noModuleNamed ("No module named " ++ fullname))
    let rest' ← ensure_fromlist_loop k env mref rest
    pure (submod :: rest')

/-- ModuleGraph.import_module: the memoized entry — an existing node is
returned (adding the membership back-edge to the parent); a parent with
no search path is a structural soft miss; otherwise find_module locates
the module (an ImportError there is a soft miss) and load_module
materializes it, adding the back-edge and the parent namespace
entry. -/
def import_module : Nat → Env → String → String → Option String → M (Option String)
  | 0, _, _, _, _ => throwErr Err.outOfFuel
  | k + 1, env, partname, fqname, parent => do
    let mO ← findNode k env fqname
    match mO with
    | some m => do
      (match parent with
       | some p => createReference (some m) (some p) "direct"
       | none => pure ())
      pure (some m)
    | none => do
      let blocked ← match parent with
        | some p => do
          let pn ← getNode p
          pure pn.packagepath.isNone
        | none => pure false
      if blocked then pure none
      else do
        let fpR ← tryImp (do
          let ppath ← match parent with
            | some p => do
              let pn ← getNode p
              pure pn.packagepath
            | none => pure (none : Option (List String))
          find_module k env partname ppath parent)
        match fpR with
        | Except.error _ => pure none
        | Except.ok found => do
          let m ← load_module k env fqname found
          (match parent with
           | some p => do
             createReference (some m) (some p) "direct"
             let pn ← getNode p
             nsSet pn.nsid partname (some m)
           | none => pure ())
          pure (some m)

/-- ModuleGraph.load_module: dispatch on the descriptor type — package
directory, source (compile and scan), cached (validate the leading
format tag, a mismatch raises the bad-magic ImportError before any node
is created, then deserialize and scan), builtin, namespace package
(search path from sys.modules) or native extension. -/
def load_module : Nat → Env → String → FoundMod → M String
  | 0, _, _, _ => throwErr Err.outOfFuel
  | k + 1, env, fqname, found =>
    match found.ftyp with
    | FType.pkgDirectory => load_package k env fqname found.pathname
    | _ => do
      let cct ←
        match found.ftyp with
        | FType.pySource =>
          (match found.co with
           | some co => pure (NodeKind.sourceModule, some co, (none : Option (List String)))
           | none => throwErr Err.runtimeFault)
        | FType.pyCompiled =>
          if found.magic ≠ env.magic then
            throwErr (Err.importError ImpKind.badCacheFormat
              ("Bad magic number in " ++ found.pathname.getD ""))
          else
            (match found.co with
             | some co => pure (NodeKind.compiledModule, some co, (none : Option (List String)))
             | none => throwErr Err.runtimeFault)
        | FType.cBuiltin => pure (NodeKind.builtinModule, none, none)
        | FType.namespacePkg =>
          (match lookupStr env.sysModules fqname with
           | some sm => pure (NodeKind.namespaceModule, none, sm.path)
           | none => throwErr Err.runtimeFault)
        | _ => pure (NodeKind.extensionModule, none, none)
      let m ← createNode k env cct.1 fqname none
      setNodeF m (fun n => { n with filename := found.pathname })
      (match cct.2.1 with
       | some co => do
         setNodeF m (fun n => { n with code := some co })
         scan_code k env co m
       | none => pure ())
      (match cct.2.2 with
       | some pp => setNodeF m (fun n => { n with packagepath := some pp })
       | none => pure ())
      pure m

/-- ModuleGraph._safe_import_hook: the non-raising wrapper — an
ImportError from import_hook (called without the fromlist) becomes a
MissingModule node with a direct edge from the caller; then each
fromlist name is satisfied from the namespace or by a second import,
with misses becoming MissingModule placeholders. -/
def safe_import_hook : Nat → Env → String → Option String → Option (List String) → Int → M (List String)
  | 0, _, _, _, _, _ => throwErr Err.outOfFuel
  | k + 1, env, name, caller, fromlist, level => do
    let r ← tryImp (import_hook k env name caller none level)
    let m ← match r with
      | Except.ok mods =>
        (match mods with
         | [x] => pure x
         | _ => throwErr Err.assertionFailed)
      | Except.error _ => do
        let mm ← createNode k env NodeKind.missingModule name none
        createReference caller (some mm) "direct"
        pure mm
    safeSubLoop k env name caller level m (fromlist.getD []) [m]

def safeSubLoop : Nat → Env → String → Option String → Int → String → List String → List String → M (List String)
  | 0, _, _, _, _, _, _, _ => throwErr Err.outOfFuel
  | _ + 1, _, _, _, _, _, [], subs => pure subs
  | k + 1, env, name, caller, level, mref, sub :: rest, subs => do
    let mn ← getNode mref
    let inNs ← nsLookup mn.nsid sub
    match inNs with
    | some smv => do
      let subs' := match smv with
        | some s => subsAdd subs s
        | none => subs
      createReference caller smv "direct"
      safeSubLoop k env name caller level mref rest subs'
    | none => do
      let fullname := name ++ "." ++ sub
      let smO ← findNode k env fullname
      let smv ← match smO with
        | some s => pure (some s)
        | none => do
          let r2 ← tryImp (import_hook k env name caller (some [sub]) level)
          match r2 with
          | Except.error _ => do
            let mm ← createNode k env NodeKind.missingModule fullname none
            pure (some mm)
          | Except.ok _ => findNode k env fullname
      nsSet mn.nsid sub smv
      match smv with
      | some s => do
        createReference (some s) (some mref) "direct"
        safeSubLoop k env name caller level mref rest (subsAdd subs s)
      | none => safeSubLoop k env name caller level mref rest subs

/-- ModuleGraph.scan_code: decode the unit with the scanner selected by
the interpreter version, replay every event against the engine, then
recurse into every code constant of the unit. -/
def scan_code : Nat → Env → PyCode → String → M Unit
  | 0, _, _, _ => throwErr Err.outOfFuel
  | k + 1, env, co, mref => do
    scanEventsLoop k env (runScanner env co) mref
    scanConstsLoop k env co.co_consts mref

def scanEventsLoop : Nat → Env → List ScanEvent → String → M Unit
  | 0, _, _, _ => throwErr Err.outOfFuel
  | _ + 1, _, [], _ => pure ()
  | k + 1, env, ev :: rest, mref => do
    (match ev with
     | ScanEvent.store nm => do
       let mn ← getNode mref
       gnAdd mn.gnid nm
     | ScanEvent.imp fl nm => scanImportEvent k env fl nm (-1) mref
     | ScanEvent.absImp fl nm => scanImportEvent k env fl nm 0 mref
     | ScanEvent.relImp level fl nm =>
       if nm ≠ "" then do
         let _ ← safe_import_hook k env nm (some mref) fl level
         pure ()
       else do
         let parentO ← determine_parent k env (some mref) level
         match parentO with
         | some pid => do
           let pn ← getNode pid
           let _ ← safe_import_hook k env pn.identifier none fl 0
           pure ()
         | none => throwErr Err.attributeMissing)
    scanEventsLoop k env rest mref

/-- The import/absolute_import arm of scan_code: strip the wildcard
marker, run the non-raising import, and for a wildcard pull the
target's global names and unresolved wildcard origins into the scanning
unit, or record the target name as an unresolved origin when the target
carries no code or was not found. -/
def scanImportEvent : Nat → Env → Option (List String) → String → Int → String → M Unit
  | 0, _, _, _, _, _ => throwErr Err.outOfFuel
  | k + 1, env, fl, nm, level, mref => do
    let haveStar := match fl with
      | some l => l.contains "*"
      | none => false
    let fl' := fl.map (fun l => l.filter (fun x => x ≠ "*"))
    let _ ← safe_import_hook k env nm (some mref) fl' level
    if haveStar then do
      let mn ← getNode mref
      let mm1 ← if ppTruthy mn.packagepath then findNode k env (mn.identifier ++ "." ++ nm)
                else pure (none : Option String)
      let mm ← match mm1 with
        | none => findNode k env nm
        | some x => pure (some x)
      match mm with
      | some mmref => do
        let mmn ← getNode mmref
        gnMergeFrom mn.gnid mmn.gnid
        siMergeFrom mn.siid mmn.siid
        if mmn.code.isNone then siAdd mn.siid nm else pure ()
      | none => siAdd mn.siid nm
    else pure ()

def scanConstsLoop : Nat → Env → List PyConst → String → M Unit
  | 0, _, _, _ => throwErr Err.outOfFuel
  | _ + 1, _, [], _ => pure ()
  | k + 1, env, c :: rest, mref => do
    (match c with
     | PyConst.codeC co => scan_code k env co mref
     | _ => pure ())
    scanConstsLoop k env rest mref

/-- ModuleGraph.load_package: apply the package-identifier substitution,
create the Package node, set its search path from the directory and the
package-path override table (the override list verbatim when it already
holds the directory), then locate and load the initializer unit. -/
def load_package : Nat → Env → String → Option String → M String
  | 0, _, _, _ => throwErr Err.outOfFuel
  | k + 1, env, fqname, pathnameO => do
    let fq := (lookupStr env.replacePackageMap fqname).getD fqname
    let m ← createNode k env NodeKind.package fq none
    setNodeF m (fun n => { n with filename := pathnameO })
    let pathname := pathnameO.getD ""
    let additions := (lookupStr env.packagePathMap fq).getD []
    let pp := if additions.contains pathname then additions else pathname :: additions
    setNodeF m (fun n => { n with packagepath := some pp })
    let found ← find_module k env "__init__" (some pp) none
    let _ ← load_module k env fq found
    pure m

/-- ModuleGraph.find_module: reject (defensively) a fully qualified
name that already has a node; with no path, a platform builtin short-
circuits, otherwise the instance search path is used; the host finder
locates the module (realpath applied to a non-empty location), and on
its ImportError the sys.modules probe may recognize a pip-style
namespace package, else the ImportError propagates. -/
def find_module : Nat → Env → String → Option (List String) → Option String → M FoundMod
  | 0, _, _, _, _ => throwErr Err.outOfFuel
  | k + 1, env, name, path, parent => do
    let fullname ← match parent with
      | some p => do
        let pn ← getNode p
        pure (pn.identifier ++ "." ++ name)
      | none => pure name
    let nO ← findNode k env fullname
    match nO with
    | some _ => throwErr (Err.importError ImpKind.duplicateResolution name)
    | none => do
      let pathR ← match path with
        | none =>
          if env.builtins.contains name then pure (none : Option (List String))
          else do
            let s ← mget
            pure (some s.path)
        | some p => pure (some p)
      match pathR with
      | none => pure { pathname := none, ftyp := FType.cBuiltin, co := none, magic := 0 }
      | some dirs =>
        match impFindModule env name dirs with
        | some fm =>
          (match fm.pathname with
           | some b =>
             if b ≠ "" then pure { fm with pathname := some (env.realpath b) } else pure fm
           | none => pure fm)
        | none =>
          match lookupStr env.sysModules fullname with
          | some sm =>
            if sm.file.isSome ∨ ¬ ppTruthy sm.path then
              throwErr (Err.importError ImpKind.noModuleNamed name)
            else pure { pathname := none, ftyp := FType.namespacePkg, co := none, magic := 0 }
          | none => throwErr (Err.importError ImpKind.noModuleNamed name)

end

/-! Observation helpers for states and results. -/

/-- The node identifiers of the graph, in creation order. -/
def nodeKeys (s : St) : List String := s.nodes.map (fun p => p.1)

/-- The kind of the node registered under an identifier. -/
def kindOf (s : St) (i : String) : Option NodeKind :=
  (lookupStr s.nodes i).map (fun n => n.kind)

/-- The globalnames set of the node registered under an identifier. -/
def gnOf (s : St) (i : String) : List String :=
  match lookupStr s.nodes i with
  | some n => s.gnStore.getD n.gnid []
  | none => []

/-- The starimports set of the node registered under an identifier. -/
def siOf (s : St) (i : String) : List String :=
  match lookupStr s.nodes i with
  | some n => s.siStore.getD n.siid []
  | none => []

/-- A namespace entry of the node registered under an identifier: none
when absent, some v when stored (v itself None or a node reference). -/
def nsValOf (s : St) (i key : String) : Option (Option String) :=
  match lookupStr s.nodes i with
  | some n => lookupStr (s.nsStore.getD n.nsid []) key
  | none => none

/-- How many graph entries carry the identifier. -/
def keyCount (s : St) (name : String) : Nat :=
  (s.nodes.filter (fun p => p.1 == name)).length

/-- Whether a run ended without a raised exception. -/
def resOk (r : Except Err α × St) : Bool :=
  match r.1 with
  | Except.ok _ => true
  | Except.error _ => false

/-! Spec-side definition for the decoder-dialect claim. -/

/-- Does a byte stream show the 2.5 marker pattern (LOAD_CONST,
LOAD_CONST, IMPORT_NAME at three consecutive slots) anywhere? -/
def hasTriple : List Nat → Bool
  | [] => false
  | c :: rest =>
    (decide (c = LOAD_CONST ∧ rest.getD 2 0 = LOAD_CONST ∧ rest.getD 5 0 = IMPORT_NAME))
      || hasTriple rest

/-- Modelled from the spec: the per-unit dialect detection of sections
4.1 and 9 — a lightweight pre-scan of the unit's instruction stream for
the level-dialect marker pattern selects the 2.5 decoder, otherwise the
older one; the caller does not choose the dialect.  This is the
behaviour the spec claims for scan_code, to be compared with
runScanner. -/
def specPerUnitScanner (co : PyCode) : List ScanEvent :=
  if hasTriple co.co_code then scan_opcodes_25 co.co_code co.co_names co.co_consts
  else scan_opcodes co.co_code co.co_names co.co_consts

/-! Concrete scenarios used by the closed theorems and witnesses. -/

/-- A minimal environment: empty search path and file system, identity
realpath. -/
def envTiny : Env :=
  { fs := [], defaultPath := [], builtins := [], magic := 0, ge25 := true
  , realpath := fun p => p, scripts := [], sysModules := [], listing := []
  , suffixes := [], packagePathMap := [], replacePackageMap := [] }

/-- A plain already-materialized module node, container ids 0. -/
def nodeX : NodeRec :=
  { graphident := "x", identifier := "x", kind := NodeKind.sourceModule, filename := none,
    packagepath := none, code := none, nsid := 0, gnid := 0, siid := 0 }

/-- A one-node state holding nodeX. -/
def sTiny : St := ⟨[], [], [("x", nodeX)], [], [[]], [[]], [[]]⟩

/-- The compiled form of an empty source unit (LOAD_CONST None,
RETURN_VALUE). -/
def emptyInitCode : PyCode := PyCode.mk [100, 0, 0, 83] [] [PyConst.noneC]

/-- import pkg.sub, new dialect: LOAD_CONST -1, LOAD_CONST None,
IMPORT_NAME pkg.sub, STORE_NAME pkg. -/
def mainCode : PyCode :=
  PyCode.mk [100, 0, 0, 100, 1, 0, 107, 0, 0, 90, 1, 0] ["pkg.sub", "pkg"]
    [PyConst.intC (-1), PyConst.noneC]

/-- import pkg.missing, new dialect. -/
def subCode : PyCode :=
  PyCode.mk [100, 0, 0, 100, 1, 0, 107, 0, 0, 90, 1, 0] ["pkg.missing", "pkg"]
    [PyConst.intC (-1), PyConst.noneC]

/-- C5 environment: a script imports pkg.sub; pkg is a package with an
empty initializer; pkg.sub exists and imports the absent
pkg.missing. -/
def envC5 : Env :=
  { fs := [ (("/lib", "pkg"), { pathname := some "/lib/pkg", ftyp := FType.pkgDirectory, co := none, magic := 0 })
          , (("/lib/pkg", "__init__"), { pathname := some "/lib/pkg/__init__.py", ftyp := FType.pySource, co := some emptyInitCode, magic := 0 })
          , (("/lib/pkg", "sub"), { pathname := some "/lib/pkg/sub.py", ftyp := FType.pySource, co := some subCode, magic := 0 }) ]
  , defaultPath := ["/lib"], builtins := [], magic := 62211, ge25 := true
  , realpath := fun p => p
  , scripts := [("/main.py", mainCode)]
  , sysModules := [], listing := [], suffixes := [(".py", FType.pySource)]
  , packagePathMap := [], replacePackageMap := [] }

/-- The C5 end-to-end run. -/
def c5run : Except Err String × St :=
  run_script 60 envC5 "/main.py" none (mkState envC5 none [] [])

/-- C2 environment: pkg is a package with an empty initializer. -/
def envC2 : Env :=
  { fs := [ (("/lib", "pkg"), { pathname := some "/lib/pkg", ftyp := FType.pkgDirectory, co := none, magic := 0 })
          , (("/lib/pkg", "__init__"), { pathname := some "/lib/pkg/__init__.py", ftyp := FType.pySource, co := some emptyInitCode, magic := 0 }) ]
  , defaultPath := ["/lib"], builtins := [], magic := 62211, ge25 := true
  , realpath := fun p => p, scripts := [], sysModules := [], listing := []
  , suffixes := [(".py", FType.pySource)], packagePathMap := [], replacePackageMap := [] }

/-- C2 run: pkg.sub is registered both excluded and as an alias of pkg
(exclusion overrides), then imported as a dotted name. -/
def c2run : Except Err (List String) × St :=
  import_hook 30 envC2 "pkg.sub" none none (-1)
    (mkState envC2 none ["pkg.sub"] [("pkg.sub", LazyEntry.aliasOf "pkg")])

/-- A level-3 relative import of x from a top-level module (LOAD_CONST
3, LOAD_CONST None, IMPORT_NAME x). -/
def relCode : PyCode :=
  PyCode.mk [100, 0, 0, 100, 1, 0, 107, 0, 0] ["x"] [PyConst.intC 3, PyConst.noneC]

/-- A level-3 relative import with an empty target from a top-level
module. -/
def relCodeEmpty : PyCode :=
  PyCode.mk [100, 0, 0, 100, 1, 0, 107, 0, 0] [""] [PyConst.intC 3, PyConst.noneC]

/-- C3 environment: module m holds a too-deep relative import of x;
module m2 holds a too-deep relative import of the ancestor itself. -/
def envC3 : Env :=
  { fs := [ (("/lib", "m"), { pathname := some "/lib/m.py", ftyp := FType.pySource, co := some relCode, magic := 0 })
          , (("/lib", "m2"), { pathname := some "/lib/m2.py", ftyp := FType.pySource, co := some relCodeEmpty, magic := 0 }) ]
  , defaultPath := ["/lib"], builtins := [], magic := 62211, ge25 := true
  , realpath := fun p => p, scripts := [], sysModules := [], listing := []
  , suffixes := [(".py", FType.pySource)], packagePathMap := [], replacePackageMap := [] }

/-- C3 run with the non-empty target. -/
def c3run : Except Err (List String) × St :=
  import_hook 30 envC3 "m" none none (-1) (mkState envC3 none [] [])

/-- C3 run with the empty target. -/
def c3runEmpty : Except Err (List String) × St :=
  import_hook 30 envC3 "m2" none none (-1) (mkState envC3 none [] [])

/-- The C3 witness caller: a top-level module a.b with no package
path. -/
def nodeAB : NodeRec :=
  { graphident := "a.b", identifier := "a.b", kind := NodeKind.sourceModule, filename := none,
    packagepath := none, code := none, nsid := 0, gnid := 0, siid := 0 }

/-- A one-node state holding nodeAB. -/
def sC3W : St := ⟨[], [], [("a.b", nodeAB)], [], [[]], [[]], [[]]⟩

/-- The C4 witness scanning unit m, already materialized. -/
def nodeM : NodeRec :=
  { graphident := "m", identifier := "m", kind := NodeKind.sourceModule,
    filename := some "/lib/m.py", packagepath := none, code := none, nsid := 0, gnid := 0, siid := 0 }

/-- A one-node state holding nodeM, search path /lib. -/
def sW4 : St := ⟨["/lib"], [], [("m", nodeM)], [], [[]], [[]], [[]]⟩

/-- C4 witness environment: nothing on the search path, so the name
"absent" has no corresponding module. -/
def envC4W : Env :=
  { fs := [], defaultPath := ["/lib"], builtins := [], magic := 62211, ge25 := true
  , realpath := fun p => p, scripts := [], sysModules := [], listing := []
  , suffixes := [(".py", FType.pySource)], packagePathMap := [], replacePackageMap := [] }

/-- C6 environment: bad is a precompiled cache file whose leading tag
1234 does not match the host tag 62211. -/
def envC6 : Env :=
  { fs := [ (("/lib", "bad"), { pathname := some "/lib/bad.pyc", ftyp := FType.pyCompiled, co := some emptyInitCode, magic := 1234 }) ]
  , defaultPath := ["/lib"], builtins := [], magic := 62211, ge25 := true
  , realpath := fun p => p, scripts := [], sysModules := [], listing := []
  , suffixes := [(".py", FType.pySource), (".pyc", FType.pyCompiled)]
  , packagePathMap := [], replacePackageMap := [] }

/-- C6 run: a direct top-level import of the bad cache file. -/
def c6run : Except Err (List String) × St :=
  import_hook 30 envC6 "bad" none none (-1) (mkState envC6 none [] [])

/-- A concrete bad-magic descriptor for the C6 witness. -/
def fmBad : FoundMod :=
  { pathname := some "/x.pyc", ftyp := FType.pyCompiled, co := none, magic := 1 }

/-- An old-dialect unit: LOAD_CONST None, IMPORT_NAME foo, STORE_NAME
foo — the 2.4 encoding of import foo. -/
def oldCo : PyCode := PyCode.mk [100, 0, 0, 107, 0, 0, 90, 0, 0] ["foo"] [PyConst.noneC]

/-- from q import * in the 2.5 dialect (the initializer of package p in
the C8 scenario). -/
def initPCode : PyCode :=
  PyCode.mk [100, 0, 0, 100, 1, 0, 107, 0, 0, 84] ["q"] [PyConst.intC (-1), PyConst.strsC ["*"]]

/-- C8 environment: package p (initializer wildcard-imports the native
extension q) with submodule p.sub. -/
def envC8 : Env :=
  { fs := [ (("/lib", "p"), { pathname := some "/lib/p", ftyp := FType.pkgDirectory, co := none, magic := 0 })
          , (("/lib/p", "__init__"), { pathname := some "/lib/p/__init__.py", ftyp := FType.pySource, co := some initPCode, magic := 0 })
          , (("/lib/p", "sub"), { pathname := some "/lib/p/sub.py", ftyp := FType.pySource, co := some emptyInitCode, magic := 0 })
          , (("/lib", "q"), { pathname := some "/lib/q.so", ftyp := FType.extensionTyp, co := none, magic := 0 }) ]
  , defaultPath := ["/lib"], builtins := [], magic := 62211, ge25 := true
  , realpath := fun p => p, scripts := [], sysModules := [], listing := []
  , suffixes := [(".py", FType.pySource)], packagePathMap := [], replacePackageMap := [] }

/-- C8 initial state: al is registered as an alias of p. -/
def c8s0 : St := mkState envC8 none [] [("al", LazyEntry.aliasOf "p")]

/-- C8 step 1: resolving al materializes p (scanning its initializer)
and builds the AliasNode. -/
def c8r1 : Except Err (Option String) × St := findNode 40 envC8 "al" c8s0

/-- The state right after alias creation. -/
def c8s1 : St := c8r1.2

/-- C8 step 2: afterwards p.sub is imported, mutating p's namespace. -/
def c8r2 : Except Err (List String) × St := import_hook 40 envC8 "p.sub" none none (-1) c8s1

/-- The state after the later import. -/
def c8s2 : St := c8r2.2

/-- The initializer of package p in the C9 scenario: store A, store
B. -/
def initP9 (A B : String) : PyCode := PyCode.mk [90, 0, 0, 90, 1, 0] [A, B] []

/-- from p import * in the 2.5 dialect (module m of the C9
scenario). -/
def mCode9 : PyCode :=
  PyCode.mk [100, 0, 0, 100, 1, 0, 107, 0, 0, 84] ["p"] [PyConst.intC (-1), PyConst.strsC ["*"]]

/-- C9 environment, parametrized by the two names the initializer of p
defines. -/
def envC9 (A B : String) : Env :=
  { fs := [ (("/lib", "p"), { pathname := some "/lib/p", ftyp := FType.pkgDirectory, co := none, magic := 0 })
          , (("/lib/p", "__init__"), { pathname := some "/lib/p/__init__.py", ftyp := FType.pySource, co := some (initP9 A B), magic := 0 })
          , (("/lib", "m"), { pathname := some "/lib/m.py", ftyp := FType.pySource, co := some mCode9, magic := 0 }) ]
  , defaultPath := ["/lib"], builtins := [], magic := 62211, ge25 := true
  , realpath := fun p => p, scripts := [], sysModules := [], listing := []
  , suffixes := [(".py", FType.pySource)], packagePathMap := [], replacePackageMap := [] }

/-- The C9 run: import m, whose scan wildcard-imports p. -/
def c9run (A B : String) : Except Err (List String) × St :=
  import_hook 40 (envC9 A B) "m" none none (-1) (mkState (envC9 A B) none [] [])

/-- The C10 witness node: a script already materialized under its real
path. -/
def nodeS : NodeRec :=
  { graphident := "/s.py", identifier := "/s.py", kind := NodeKind.script,
    filename := some "/s.py", packagepath := none, code := none, nsid := 0, gnid := 0, siid := 0 }

/-- A one-node state holding nodeS. -/
def sW10 : St := ⟨[], [], [("/s.py", nodeS)], [], [[]], [[]], [[]]⟩

/-- The node record AliasNode construction yields: identifier and
search path copied from the target, the namespace and global-name
container ids shared with the target, and a fresh (empty) starimports
container — the structural content of the reference-copying alias
constructor. -/
def aliasRecFor (name : String) (t : NodeRec) (sidLen : Nat) : NodeRec :=
  { graphident := name, identifier := t.identifier, kind := NodeKind.aliasNode,
    filename := none, packagepath := t.packagepath, code := none,
    nsid := t.nsid, gnid := t.gnid, siid := sidLen }

/-! Small laws of the state helpers used by the generic theorems. -/

theorem createReference_nodes (a b : Option String) (d : String) (s : St) :
    ((createReference a b d s).2).nodes = s.nodes := by
  cases s with
  | mk p lz nd ed ns gn si =>
    match a, b with
    | some f, some t =>
      simp only [createReference]
      by_cases h : (f, t, d) ∈ ed
      · simp [h]
      · simp [h]
    | some _, none => rfl
    | none, some _ => rfl
    | none, none => rfl

theorem createReference_ok (a b : Option String) (d : String) (s : St) :
    (createReference a b d s).1 = Except.ok () := by
  cases s with
  | mk p lz nd ed ns gn si =>
    match a, b with
    | some f, some t =>
      simp only [createReference]
      by_cases h : (f, t, d) ∈ ed
      · simp [h]
      · simp [h]
    | some _, none => rfl
    | none, some _ => rfl
    | none, none => rfl

theorem createReference_contains (f t : String) (d : String) (s : St) :
    ((createReference (some f) (some t) d s).2).edges.contains (f, t, d) = true := by
  cases s with
  | mk p lz nd ed ns gn si =>
    simp only [createReference]
    by_cases h : (f, t, d) ∈ ed
    · simp [h]
    · simp [h]

theorem createReference_already (f t : String) (d : String) (s : St)
    (h : s.edges.contains (f, t, d) = true) :
    (createReference (some f) (some t) d s).2 = s := by
  cases s with
  | mk p lz nd ed ns gn si =>
    simp only [createReference]
    simp at h
    simp [h]

/-- Creating the same (source, target, kind) edge a second time changes
nothing: the state after the second call is the state after the
first. -/
theorem createReference_idem (f t : String) (d : String) (s : St) :
    (createReference (some f) (some t) d ((createReference (some f) (some t) d s).2)).2
      = (createReference (some f) (some t) d s).2 :=
  createReference_already f t d _ (createReference_contains f t d s)

theorem findNode_hit (k : Nat) (env : Env) (name : String) (s : St) (m : NodeRec)
    (h : lookupStr s.nodes name = some m) :
    findNode (k + 1) env name s = (Except.ok (some name), s) := by
  simp only [findNode, mget, bind, Monad.toBind, instMonadM, h, pure]

theorem findNode_miss (k : Nat) (env : Env) (name : String) (s : St)
    (h1 : lookupStr s.nodes name = none) (h2 : lookupStr s.lazynodes name = none) :
    findNode (k + 1) env name s = (Except.ok none, s) := by
  simp only [findNode, mget, bind, Monad.toBind, instMonadM, h1, h2, pure]

theorem import_module_hit (k : Nat) (env : Env) (part fq : String) (parentO : Option String)
    (s : St) (m : NodeRec) (h : lookupStr s.nodes fq = some m) :
    (import_module (k + 2) env part fq parentO s).1 = Except.ok (some fq) ∧
    ((import_module (k + 2) env part fq parentO s).2).nodes = s.nodes := by
  have hf := findNode_hit k env fq s m h
  simp only [import_module, bind, Monad.toBind, instMonadM, hf]
  cases parentO with
  | none => simp [pure]
  | some p =>
    have h1 := createReference_ok (some fq) (some p) "direct" s
    have h2 := createReference_nodes (some fq) (some p) "direct" s
    cases hcr : createReference (some fq) (some p) "direct" s with
    | mk r s' =>
      rw [hcr] at h1 h2
      simp at h1 h2
      subst h1
      simp [hcr, pure, h2]

theorem createNode_hit (k : Nat) (env : Env) (cls : NodeKind) (name : String)
    (tgt : Option String) (s : St) (m : NodeRec) (h : lookupStr s.nodes name = some m) :
    createNode (k + 2) env cls name tgt s = (Except.ok name, s) := by
  have hf := findNode_hit k env name s m h
  simp only [createNode, bind, Monad.toBind, instMonadM, hf, pure]

theorem run_script_hit (k : Nat) (env : Env) (p : String) (caller : Option String)
    (s : St) (m : NodeRec) (h : lookupStr s.nodes (env.realpath p) = some m) :
    run_script (k + 2) env p caller s = (Except.ok (env.realpath p), s) := by
  have hf := findNode_hit k env (env.realpath p) s m h
  simp only [run_script, bind, Monad.toBind, instMonadM, hf, pure]

theorem determine_parent_tooDeep (k : Nat) (env : Env) (cid : String) (level : Int)
    (s : St) (c : NodeRec) (hc : lookupStr s.nodes cid = some c) (hl : 1 ≤ level)
    (hd : (countDots c.identifier : Int) + (if ppTruthy c.packagepath then 1 else 0) < level) :
    determine_parent (k + 1) env (some cid) level s =
      (Except.error (Err.importError ImpKind.relativeTooDeep "relative importpath too deep"), s) := by
  have h0 : ¬ (level = 0) := by omega
  simp only [determine_parent, bind, Monad.toBind, instMonadM, h0, if_false, getNode, mget, hc, pure]
  rw [if_pos hl]
  by_cases hb : ppTruthy c.packagepath = true
  · simp only [if_pos hb] at hd ⊢
    have h1 : ¬ (level - 1 = 0) := by omega
    have h2 : (countDots c.identifier : Int) < level - 1 := by omega
    simp only [if_neg h1, if_pos h2, throwErr]
  · simp only [if_neg hb] at hd ⊢
    have h2 : (countDots c.identifier : Int) < level := by omega
    simp only [if_neg h0, if_pos h2, throwErr]

theorem lookup_upsert_self (l : List (String × α)) (k : String) (v : α) :
    lookupStr (upsert l k v) k = some v := by
  induction l with
  | nil => simp [upsert, lookupStr]
  | cons hd tl ih =>
    obtain ⟨k', v'⟩ := hd
    by_cases h : k' = k
    · simp [upsert, h, lookupStr]
    · simp [upsert, h, lookupStr, ih]

theorem lookup_upsert_other (l : List (String × α)) (k' k : String) (v : α) (h : k' ≠ k) :
    lookupStr (upsert l k' v) k = lookupStr l k := by
  induction l with
  | nil => simp [upsert, lookupStr, h]
  | cons hd tl ih =>
    obtain ⟨k2, v2⟩ := hd
    by_cases hh : k2 = k'
    · simp [upsert, hh, lookupStr, h]
    · simp [upsert, hh, lookupStr, ih]

theorem foldl_upsert_not_mem (l : List String) (base : List (String × α)) (v : α)
    (name : String) (h : ¬ name ∈ l) :
    lookupStr (l.foldl (fun acc m => upsert acc m v) base) name = lookupStr base name := by
  induction l generalizing base with
  | nil => rfl
  | cons hd tl ih =>
    simp at h
    rw [List.foldl_cons, ih (upsert base hd v) h.2,
      lookup_upsert_other base hd name v (fun hx => h.1 hx.symm)]

theorem foldl_upsert_mem (l : List String) (base : List (String × α)) (v : α)
    (name : String) (h : name ∈ l) :
    lookupStr (l.foldl (fun acc m => upsert acc m v) base) name = some v := by
  induction l generalizing base with
  | nil => simp at h
  | cons hd tl ih =>
    by_cases ht : name ∈ tl
    · rw [List.foldl_cons, ih (upsert base hd v) ht]
    · have hhd : hd = name := by
        rcases List.mem_cons.mp h with h1 | h2
        · exact h1.symm
        · exact absurd h2 ht
      subst hhd
      rw [List.foldl_cons, foldl_upsert_not_mem tl (upsert base hd v) v hd ht,
        lookup_upsert_self]

theorem mkState_exclude_precedence (env : Env) (path : Option (List String))
    (excludes : List String) (implies : List (String × LazyEntry)) (name : String)
    (h : name ∈ excludes) :
    lookupStr (mkState env path excludes implies).lazynodes name = some LazyEntry.excludedEntry := by
  simp only [mkState]
  exact foldl_upsert_mem excludes _ LazyEntry.excludedEntry name h

theorem lookup_append_none (l l2 : List (String × α)) (k : String)
    (h : lookupStr l k = none) : lookupStr (l ++ l2) k = lookupStr l2 k := by
  induction l with
  | nil => rfl
  | cons hd tl ih =>
    obtain ⟨k', v'⟩ := hd
    by_cases hh : k' = k
    · simp [lookupStr, hh] at h
    · simp [lookupStr, hh] at h ⊢
      exact ih h

theorem findNode_excluded (k : Nat) (env : Env) (name : String) (s : St)
    (h1 : lookupStr s.nodes name = none)
    (h2 : lookupStr s.lazynodes name = some LazyEntry.excludedEntry)
    (h3 : lookupStr (removeKey s.lazynodes name) name = none) :
    (findNode (k + 3) env name s).1 = Except.ok (some name) ∧
    kindOf (findNode (k + 3) env name s).2 name = some NodeKind.excludedModule ∧
    ((findNode (k + 3) env name s).2).edges = s.edges ∧
    nodeKeys (findNode (k + 3) env name s).2 = nodeKeys s ++ [name] := by
  obtain ⟨p, lz, nd, ed, ns, gn, si⟩ := s
  simp only at h1 h2 h3
  have hmiss := findNode_miss k env name ⟨p, removeKey lz name, nd, ed, ns, gn, si⟩ h1 h3
  simp only [findNode, mget, bind, Monad.toBind, instMonadM, h1, h2, popLazy, createNode,
    constructNode, allocNs, allocGn, allocSi, addNode, pure, hmiss, kindOf, nodeKeys]
  simp only [h3, pure, h1, lookup_append_none nd _ name h1, lookupStr]
  simp

theorem load_module_badMagic (k : Nat) (env : Env) (fq : String) (fm : FoundMod) (s : St)
    (h1 : fm.ftyp = FType.pyCompiled) (h2 : ¬ fm.magic = env.magic) :
    load_module (k + 1) env fq fm s =
      (Except.error (Err.importError ImpKind.badCacheFormat
        ("Bad magic number in " ++ fm.pathname.getD "")), s) := by
  obtain ⟨pn, ft, co, mg⟩ := fm
  simp only at h1 h2
  subst h1
  simp only [load_module, bind, Monad.toBind, instMonadM, throwErr]
  simp only [ne_eq, h2, not_false_eq_true, if_true, ite_true]

theorem createReference_destruct (f t : String) (d : String) (s : St) :
    createReference (some f) (some t) d s =
      (Except.ok (), ⟨s.path, s.lazynodes, s.nodes,
        if s.edges.contains (f, t, d) then s.edges else s.edges ++ [(f, t, d)],
        s.nsStore, s.gnStore, s.siStore⟩) := by
  cases s with
  | mk p lz nd ed ns gn si =>
    simp only [createReference]
    by_cases h : (f, t, d) ∈ ed
    · simp [h]
    · simp [h]

theorem contains_after (ed : List (String × String × String)) (e : String × String × String) :
    ((if ed.contains e then ed else ed ++ [e]).contains e) = true := by
  by_cases h : e ∈ ed
  · simp [h]
  · simp [h]

theorem safe_import_hook_recovers (k : Nat) (env : Env) (name mref : String)
    (s s1 : St) (ik : ImpKind) (msg : String)
    (h1 : import_hook (k + 2) env name (some mref) none (-1) s
      = (Except.error (Err.importError ik msg), s1))
    (h2 : lookupStr s1.nodes name = none)
    (h3 : lookupStr s1.lazynodes name = none) :
    (safe_import_hook (k + 3) env name (some mref) none (-1) s).1 = Except.ok [name] ∧
    kindOf (safe_import_hook (k + 3) env name (some mref) none (-1) s).2 name
      = some NodeKind.missingModule ∧
    nodeKeys (safe_import_hook (k + 3) env name (some mref) none (-1) s).2
      = nodeKeys s1 ++ [name] ∧
    ((safe_import_hook (k + 3) env name (some mref) none (-1) s).2).edges.contains
      (mref, name, "direct") = true := by
  obtain ⟨p, lz, nd, ed, ns, gn, si⟩ := s1
  simp only at h2 h3
  have hmiss := findNode_miss k env name ⟨p, lz, nd, ed, ns, gn, si⟩ h2 h3
  simp only [safe_import_hook, bind, Monad.toBind, instMonadM, tryImp, h1, createNode,
    constructNode, allocNs, allocGn, allocSi, addNode, pure, hmiss, safeSubLoop]
  simp only [h2, createReference_destruct, kindOf, nodeKeys]
  simp only [lookup_append_none nd _ name h2, lookupStr, contains_after]
  simp

set_option maxHeartbeats 4000000

/-- C1: for every identifier already materialized, resolving it again
through import_module returns the very node registered under that
identifier and leaves the node set unchanged; re-creating it through
createNode returns the existing node with the state untouched; and
creating the same (source, target, kind) edge a second time leaves the
state exactly as after the first creation, so no edge enumeration ever
shows a duplicate. -/
theorem claim_C1_memoization (k : Nat) (env : Env) (part fq : String) (parentO : Option String)
    (cls : NodeKind) (tgt : Option String) (s : St) (m : NodeRec)
    (h : lookupStr s.nodes fq = some m) :
    ((import_module (k + 2) env part fq parentO s).1 = Except.ok (some fq) ∧
     ((import_module (k + 2) env part fq parentO s).2).nodes = s.nodes) ∧
    createNode (k + 2) env cls fq tgt s = (Except.ok fq, s) ∧
    ∀ f t d s', (createReference (some f) (some t) d ((createReference (some f) (some t) d s').2)).2
        = (createReference (some f) (some t) d s').2 :=
  ⟨import_module_hit k env part fq parentO s m h,
   createNode_hit k env cls fq tgt s m h,
   fun f t d s' => createReference_idem f t d s'⟩

/-- C1 witness: the fast paths evaluated on a concrete one-node
state. -/
theorem claim_C1_memoization_witness :
    ((import_module 5 envTiny "x" "x" none sTiny).1 = Except.ok (some "x") ∧
     ((import_module 5 envTiny "x" "x" none sTiny).2).nodes = sTiny.nodes) ∧
    createNode 5 envTiny NodeKind.sourceModule "x" none sTiny = (Except.ok "x", sTiny) ∧
    (createReference (some "a") (some "b") "direct"
        ((createReference (some "a") (some "b") "direct" sTiny).2)).2
      = (createReference (some "a") (some "b") "direct" sTiny).2 := by
  have h := claim_C1_memoization 3 envTiny "x" "x" none NodeKind.sourceModule none sTiny nodeX rfl
  exact ⟨h.1, h.2.1, h.2.2 "a" "b" "direct" sTiny⟩

/-- C2 counterexample: with pkg.sub registered excluded (and also as an
alias), importing pkg.sub as a dotted name yields the ExcludedModule
node but also creates a direct membership edge from pkg.sub to its
parent package pkg, so the excluded node does have an outgoing direct
edge. -/
theorem claim_C2_counterexample :
    kindOf c2run.2 "pkg.sub" = some NodeKind.excludedModule ∧
    c2run.2.edges.contains ("pkg.sub", "pkg", "direct") = true := ⟨rfl, rfl⟩

/-- C2 amended: an excluded identifier always wins the lazy registry
(even when also registered as an alias or implied-dependency source),
and its first resolution through findNode returns an ExcludedModule
node, adds no edge at materialization and adds exactly that one node;
a later parented resolution may still add a membership edge out of the
excluded node (see the counterexample). -/
theorem claim_C2_amended (env : Env) (path : Option (List String)) (excludes : List String)
    (implies : List (String × LazyEntry)) (name : String) (k : Nat) (s : St)
    (hx : name ∈ excludes)
    (h1 : lookupStr s.nodes name = none)
    (h2 : lookupStr s.lazynodes name = some LazyEntry.excludedEntry)
    (h3 : lookupStr (removeKey s.lazynodes name) name = none) :
    lookupStr (mkState env path excludes implies).lazynodes name = some LazyEntry.excludedEntry ∧
    (findNode (k + 3) env name s).1 = Except.ok (some name) ∧
    kindOf (findNode (k + 3) env name s).2 name = some NodeKind.excludedModule ∧
    ((findNode (k + 3) env name s).2).edges = s.edges ∧
    nodeKeys (findNode (k + 3) env name s).2 = nodeKeys s ++ [name] :=
  ⟨mkState_exclude_precedence env path excludes implies name hx,
   (findNode_excluded k env name s h1 h2 h3).1,
   (findNode_excluded k env name s h1 h2 h3).2.1,
   (findNode_excluded k env name s h1 h2 h3).2.2.1,
   (findNode_excluded k env name s h1 h2 h3).2.2.2⟩

/-- C2 witness: the amended claim evaluated on the concrete C2
registry and its initial state. -/
theorem claim_C2_amended_witness :
    lookupStr (mkState envC2 none ["pkg.sub"] [("pkg.sub", LazyEntry.aliasOf "pkg")]).lazynodes
      "pkg.sub" = some LazyEntry.excludedEntry ∧
    (findNode 10 envC2 "pkg.sub"
      (mkState envC2 none ["pkg.sub"] [("pkg.sub", LazyEntry.aliasOf "pkg")])).1
      = Except.ok (some "pkg.sub") ∧
    kindOf (findNode 10 envC2 "pkg.sub"
      (mkState envC2 none ["pkg.sub"] [("pkg.sub", LazyEntry.aliasOf "pkg")])).2 "pkg.sub"
      = some NodeKind.excludedModule ∧
    ((findNode 10 envC2 "pkg.sub"
      (mkState envC2 none ["pkg.sub"] [("pkg.sub", LazyEntry.aliasOf "pkg")])).2).edges
      = (mkState envC2 none ["pkg.sub"] [("pkg.sub", LazyEntry.aliasOf "pkg")]).edges ∧
    nodeKeys (findNode 10 envC2 "pkg.sub"
      (mkState envC2 none ["pkg.sub"] [("pkg.sub", LazyEntry.aliasOf "pkg")])).2
      = nodeKeys (mkState envC2 none ["pkg.sub"] [("pkg.sub", LazyEntry.aliasOf "pkg")]) ++ ["pkg.sub"] :=
  claim_C2_amended envC2 none ["pkg.sub"] [("pkg.sub", LazyEntry.aliasOf "pkg")] "pkg.sub" 7
    (mkState envC2 none ["pkg.sub"] [("pkg.sub", LazyEntry.aliasOf "pkg")])
    (by simp) rfl rfl rfl


/-- C3 counterexample: a level-3 relative import of x from the
top-level module m (depth exceeded) does not abort the scan — the
resolution of m succeeds and x is recorded as a MissingModule with a
direct edge from m, so the failure is recovered during scanning, contradicting
"fatal, not converted into a MissingModule placeholder". -/
theorem claim_C3_counterexample :
    resOk c3run = true ∧
    kindOf c3run.2 "x" = some NodeKind.missingModule ∧
    c3run.2.edges.contains ("m", "x", "direct") = true := ⟨rfl, rfl, rfl⟩

/-- C3 amended: a relative import whose level exceeds the requester's
package nesting depth always fails in determine_parent with exactly the
relative-import-too-deep ImportError (never a different kind); during
scanning this failure is recoverable — with a non-empty target the
wrapper converts it into a MissingModule and the scan succeeds — and
only the empty-target form escapes the scan unrecovered. -/
theorem claim_C3_amended (k : Nat) (env : Env) (cid : String) (level : Int)
    (s : St) (c : NodeRec) (hc : lookupStr s.nodes cid = some c) (hl : 1 ≤ level)
    (hd : (countDots c.identifier : Int) + (if ppTruthy c.packagepath then 1 else 0) < level) :
    determine_parent (k + 1) env (some cid) level s =
      (Except.error (Err.importError ImpKind.relativeTooDeep "relative importpath too deep"), s) ∧
    resOk c3run = true ∧
    kindOf c3run.2 "x" = some NodeKind.missingModule ∧
    c3runEmpty.1 = Except.error (Err.importError ImpKind.relativeTooDeep "relative importpath too deep") :=
  ⟨determine_parent_tooDeep k env cid level s c hc hl hd, rfl, rfl, rfl⟩

/-- C3 witness: the amended claim at a concrete caller a.b (one dot, no
package path) and level 5. -/
theorem claim_C3_amended_witness :
    determine_parent 4 envTiny (some "a.b") 5 sC3W =
      (Except.error (Err.importError ImpKind.relativeTooDeep "relative importpath too deep"), sC3W) ∧
    resOk c3run = true ∧
    kindOf c3run.2 "x" = some NodeKind.missingModule ∧
    c3runEmpty.1 = Except.error (Err.importError ImpKind.relativeTooDeep "relative importpath too deep") :=
  claim_C3_amended 3 envTiny "a.b" 5 sC3W nodeAB rfl (by decide) (by decide)

/-- C4: when import_hook raises an ImportError for a statically
requested name (and the name is neither materialized nor lazily
registered in the state the failure left), the non-raising scan wrapper
returns successfully with exactly the one new MissingModule node for
that name appended to the graph, and a direct edge from the scanning
unit to that node is present — no exception escapes. -/
theorem claim_C4_soft_miss (k : Nat) (env : Env) (name mref : String)
    (s s1 : St) (ik : ImpKind) (msg : String)
    (h1 : import_hook (k + 2) env name (some mref) none (-1) s
      = (Except.error (Err.importError ik msg), s1))
    (h2 : lookupStr s1.nodes name = none)
    (h3 : lookupStr s1.lazynodes name = none) :
    (safe_import_hook (k + 3) env name (some mref) none (-1) s).1 = Except.ok [name] ∧
    kindOf (safe_import_hook (k + 3) env name (some mref) none (-1) s).2 name
      = some NodeKind.missingModule ∧
    nodeKeys (safe_import_hook (k + 3) env name (some mref) none (-1) s).2
      = nodeKeys s1 ++ [name] ∧
    ((safe_import_hook (k + 3) env name (some mref) none (-1) s).2).edges.contains
      (mref, name, "direct") = true :=
  safe_import_hook_recovers k env name mref s s1 ik msg h1 h2 h3

/-- C4 witness: module m imports the absent name; the wrapper returns
successfully with the one MissingModule node and the direct edge. -/
theorem claim_C4_soft_miss_witness :
    (safe_import_hook 12 envC4W "absent" (some "m") none (-1) sW4).1 = Except.ok ["absent"] ∧
    kindOf (safe_import_hook 12 envC4W "absent" (some "m") none (-1) sW4).2 "absent"
      = some NodeKind.missingModule ∧
    nodeKeys (safe_import_hook 12 envC4W "absent" (some "m") none (-1) sW4).2
      = nodeKeys sW4 ++ ["absent"] ∧
    ((safe_import_hook 12 envC4W "absent" (some "m") none (-1) sW4).2).edges.contains
      ("m", "absent", "direct") = true :=
  claim_C4_soft_miss 9 envC4W "absent" "m" sW4 sW4 ImpKind.noModuleNamed
    "No module named absent" rfl rfl rfl

/-- C5 counterexample: in the end-to-end example the resolution
succeeds, but the expected edge script -> pkg is not in the graph: only
the leaf pkg.sub receives an edge from the script. -/
theorem claim_C5_counterexample :
    resOk c5run = true ∧
    c5run.2.edges.contains ("/main.py", "pkg", "direct") = false := ⟨rfl, rfl⟩

/-- C5 amended: the end-to-end example yields exactly the nodes script,
pkg, pkg.sub and pkg.missing (of kinds Script, Package, SourceModule,
MissingModule), exactly the edges script -> pkg.sub, pkg.sub -> pkg and
pkg.sub -> pkg.missing, the run reports success, and exactly one node
carries the missing identifier; the claimed edge script -> pkg does not
exist. -/
theorem claim_C5_amended :
    c5run.1 = Except.ok "/main.py" ∧
    nodeKeys c5run.2 = ["/main.py", "pkg", "pkg.sub", "pkg.missing"] ∧
    kindOf c5run.2 "/main.py" = some NodeKind.script ∧
    kindOf c5run.2 "pkg" = some NodeKind.package ∧
    kindOf c5run.2 "pkg.sub" = some NodeKind.sourceModule ∧
    kindOf c5run.2 "pkg.missing" = some NodeKind.missingModule ∧
    c5run.2.edges = [("pkg.sub", "pkg.missing", "direct"), ("pkg.sub", "pkg", "direct"),
      ("/main.py", "pkg.sub", "direct")] ∧
    keyCount c5run.2 "pkg.missing" = 1 :=
  ⟨rfl, rfl, rfl, rfl, rfl, rfl, rfl, rfl⟩

/-- C6: loading a precompiled-cache descriptor whose leading format tag
differs from the expected value fails with the bad-cache-format
ImportError, leaving the state exactly unchanged (in particular no node
is created for the identifier); reached through a direct top-level
request, the failure propagates out of the resolution (import_module
does not soften it into a missing-module result) and the graph stays
empty. -/
theorem claim_C6_cache_validation (k : Nat) (env : Env) (fq : String) (fm : FoundMod) (s : St)
    (h1 : fm.ftyp = FType.pyCompiled) (h2 : ¬ fm.magic = env.magic) :
    load_module (k + 1) env fq fm s =
      (Except.error (Err.importError ImpKind.badCacheFormat
        ("Bad magic number in " ++ fm.pathname.getD "")), s) ∧
    c6run.1 = Except.error (Err.importError ImpKind.badCacheFormat
      "Bad magic number in /lib/bad.pyc") ∧
    nodeKeys c6run.2 = [] :=
  ⟨load_module_badMagic k env fq fm s h1 h2, rfl, rfl⟩

/-- C6 witness: the validation at a concrete descriptor whose tag 1
differs from the expected tag 0. -/
theorem claim_C6_cache_validation_witness :
    load_module 3 envTiny "x" fmBad sTiny =
      (Except.error (Err.importError ImpKind.badCacheFormat "Bad magic number in /x.pyc"),
        sTiny) ∧
    c6run.1 = Except.error (Err.importError ImpKind.badCacheFormat
      "Bad magic number in /lib/bad.pyc") ∧
    nodeKeys c6run.2 = [] :=
  claim_C6_cache_validation 2 envTiny "x" fmBad sTiny rfl (by decide)

/-- C7 counterexample: scan_code's decoding of an old-dialect unit
under a version-2.5 host differs from the per-unit pattern-based
dialect detection the spec describes — the global version switch picks
the 2.5 decoder, which drops the unit's import event. -/
theorem claim_C7_counterexample :
    ¬ (runScanner { envTiny with ge25 := true } oldCo = specPerUnitScanner oldCo) := by decide

/-- C7 amended: the decoder dialect is selected by the host interpreter
version alone — for every environment either every unit is decoded with
the 2.5 decoder or every unit with the old one, independent of the
unit's instruction pattern — and the two decoders genuinely differ on
an old-dialect unit: under a 2.5 host its import event is dropped,
while the old decoder yields it. -/
theorem claim_C7_amended :
    (∀ env : Env,
      (∀ co : PyCode, runScanner env co = scan_opcodes_25 co.co_code co.co_names co.co_consts) ∨
      (∀ co : PyCode, runScanner env co = scan_opcodes co.co_code co.co_names co.co_consts)) ∧
    runScanner { envTiny with ge25 := true } oldCo = [ScanEvent.store "foo"] ∧
    scan_opcodes oldCo.co_code oldCo.co_names oldCo.co_consts
      = [ScanEvent.imp none "foo", ScanEvent.store "foo"] := by
  refine ⟨fun env => ?_, rfl, rfl⟩
  by_cases h : env.ge25
  · exact Or.inl (fun co => by simp [runScanner, h])
  · exact Or.inr (fun co => by simp [runScanner, h])

/-- C8 counterexample: after the alias al of package p is materialized,
p's wildcard-origin set is nonempty while the alias's is empty (the
snapshot of the name sets is not taken), and a namespace entry added to
p after alias creation (by importing p.sub) is observable through the
alias — the alias is live-linked, not a frozen snapshot. -/
theorem claim_C8_counterexample :
    kindOf c8s1 "al" = some NodeKind.aliasNode ∧
    siOf c8s1 "p" = ["q"] ∧
    siOf c8s1 "al" = [] ∧
    nsValOf c8s1 "al" "sub" = none ∧
    resOk c8r2 = true ∧
    nsValOf c8s2 "al" "sub" = some (some "p.sub") := ⟨rfl, rfl, rfl, rfl, rfl, rfl⟩

/-- C8 amended: AliasNode construction copies the target's identifier
and search path and shares the target's namespace and global-name
containers by reference (the same store ids), while the wildcard-origin
set is not copied at all (the source misspells the attribute), leaving
a fresh empty one; consequently an in-place namespace mutation of the
target after alias creation is observable through the alias, as the
concrete run shows. -/
theorem claim_C8_amended :
    (∀ (name : String) (t : NodeRec) (s : St),
      constructNode NodeKind.aliasNode name (some t) s =
        (Except.ok (aliasRecFor name t s.siStore.length),
          ⟨s.path, s.lazynodes, s.nodes, s.edges,
            s.nsStore ++ [[]], s.gnStore ++ [[]], s.siStore ++ [[]]⟩)) ∧
    siOf c8s1 "p" = ["q"] ∧
    siOf c8s1 "al" = [] ∧
    nsValOf c8s1 "al" "sub" = none ∧
    nsValOf c8s2 "al" "sub" = some (some "p.sub") := by
  refine ⟨fun name t s => ?_, rfl, rfl, rfl, rfl⟩
  obtain ⟨p, lz, nd, ed, ns, gn, si⟩ := s
  rfl

/-- C9: given package p whose initializer stores the names A and B and
module m that wildcard-imports p, after resolving m its global-name set
contains both A and B, for every pair of names. -/
theorem claim_C9_wildcard (A B : String) :
    A ∈ gnOf (c9run A B).2 "m" ∧ B ∈ gnOf (c9run A B).2 "m" := by
  have h : gnOf (c9run A B).2 "m" = [B, A] := rfl
  rw [h]
  exact ⟨List.Mem.tail B (List.Mem.head []), List.Mem.head [A]⟩

/-- C10: run_script is idempotent per real path — when the real path
already has a node, a second run_script call returns that node's
identifier and leaves the state exactly unchanged (no recompilation, no
rescan, node set untouched). -/
theorem claim_C10_run_script_idempotent (k : Nat) (env : Env) (p : String)
    (caller : Option String) (s : St) (m : NodeRec)
    (h : lookupStr s.nodes (env.realpath p) = some m) :
    run_script (k + 2) env p caller s = (Except.ok (env.realpath p), s) :=
  run_script_hit k env p caller s m h

/-- C10 witness: a second run_script on the already-materialized script
path returns the node and changes nothing. -/
theorem claim_C10_run_script_idempotent_witness :
    run_script 5 envTiny "/s.py" none sW10 = (Except.ok "/s.py", sW10) := by
  have h := claim_C10_run_script_idempotent 3 envTiny "/s.py" none sW10 nodeS rfl
  simpa using h
